import Mathlib

/-!
Verification development for the scx-ai-provider adapter.

The repository is a thin translator between a model-provider abstraction and a
remote HTTP API with three model families: chat (delegated to an external
OpenAI-compatible client), text embedding, and audio transcription.

The embedding mirrors the TypeScript source:
* JSON values are the inductive `Json`; JSON numbers are modelled as rationals.
* JavaScript objects (header maps, wire bodies) are association lists with the
  JavaScript property-assignment semantics: updating an existing key in place,
  appending a fresh key at the end (`recordSet`); object spread and
  `Object.assign` are folds of `recordSet` (`recordSpread`).
* The HTTP transport is an injected function from requests to responses, as in
  the source where `fetch` is injectable; each translator returns the list of
  requests it issued together with its result, so single-call behaviour is a
  provable statement.
* Fallible TypeScript code (thrown errors, rejected promises) is `Except`.
* External collaborators that the repository only imports
  (`loadApiKey`, `withoutTrailingSlash`, `Buffer` base64, `JSON.stringify`,
  the fetch `Response.ok` flag, `createOpenAICompatible`) are modelled from
  the specification of their documented behaviour, marked in doc comments.
-/

/-- JSON values; numbers are rationals (no arithmetic is performed on them). -/
inductive Json where
| null : Json
| bool : Bool → Json
| num : Rat → Json
| str : String → Json
| arr : List Json → Json
| obj : List (String × Json) → Json

/-- True exactly on JSON strings. -/
def Json.isStr : Json → Bool
| .str _ => true
| _ => false

/-- Escaping of one character inside a JSON string literal,
modelling the external JSON.stringify. -/
def escapeJsonChar (c : Char) : String :=
  if c = '"' then "\\\"" else if c = '\\' then "\\\\"
  else if c = '\n' then "\\n" else if c = '\r' then "\\r" else if c = '\t' then "\\t"
  else String.singleton c

/-- Escaping of a JSON string literal body. -/
def escapeJsonString (s : String) : String := String.join (s.toList.map escapeJsonChar)

mutual
/-- Serialization of a JSON value to text, modelling the external
JSON.stringify used for wire bodies (numeric formatting abstracted:
non-integral rationals print as numerator/denominator). -/
def Json.serialize : Json → String
| .null => "null"
| .bool b => if b then "true" else "false"
| .num q => if q.den = 1 then toString q.num else toString q.num ++ "/" ++ toString q.den
| .str s => "\"" ++ escapeJsonString s ++ "\""
| .arr xs => "[" ++ Json.serializeList xs ++ "]"
| .obj fs => "\x7b" ++ Json.serializeFields fs ++ "\x7d"

/-- Comma-separated serialization of JSON array elements. -/
def Json.serializeList : List Json → String
| [] => ""
| [x] => x.serialize
| x :: y :: xs => x.serialize ++ "," ++ Json.serializeList (y :: xs)

/-- Comma-separated serialization of JSON object fields. -/
def Json.serializeFields : List (String × Json) → String
| [] => ""
| [(k, v)] => "\"" ++ escapeJsonString k ++ "\":" ++ v.serialize
| (k, v) :: f :: fs =>
    "\"" ++ escapeJsonString k ++ "\":" ++ v.serialize ++ "," ++ Json.serializeFields (f :: fs)
end

/-- JavaScript object property assignment `m[k] = v`: update the entry for an
existing key in place, otherwise append the new key at the end. -/
def recordSet {α : Type} : List (String × α) → String → α → List (String × α)
| [], k, v => [(k, v)]
| p :: rest, k, v => if p.1 == k then (k, v) :: rest else p :: recordSet rest k v

/-- JavaScript object lookup `m[k]`: the first entry with the given key. -/
def recordGet {α : Type} : List (String × α) → String → Option α
| [], _ => none
| p :: rest, k => if p.1 == k then some p.2 else recordGet rest k

/-- JavaScript object spread / `Object.assign(base, extra)`: assign every entry
of `extra` into `base`, in order, later entries overriding earlier ones. -/
def recordSpread {α : Type} (base extra : List (String × α)) : List (String × α) :=
  extra.foldl (fun acc p => recordSet acc p.1 p.2) base

/-- The base64 alphabet. -/
def base64Chars : List Char :=
  "ABCDEFGHIJKLMNOPQRSTUVWXYZabcdefghijklmnopqrstuvwxyz0123456789+/".toList

/-- The base64 digit for a 6-bit group. -/
def b64Char (n : Nat) : Char := base64Chars.getD n 'A'

/-- Standard base64 encoding of a byte sequence, modelling the external
Buffer.from(audio).toString of the transcription translator. -/
def base64Encode : List Nat → String
| [] => ""
| [a] => String.mk [b64Char (a / 4), b64Char (a % 4 * 16)] ++ "=="
| [a, b] => String.mk [b64Char (a / 4), b64Char (a % 4 * 16 + b / 16), b64Char (b % 16 * 4)] ++ "="
| a :: b :: c :: rest =>
    String.mk [b64Char (a / 4), b64Char (a % 4 * 16 + b / 16), b64Char (b % 16 * 4 + c / 64),
      b64Char (c % 64)] ++ base64Encode rest

/-- An outbound HTTP request as assembled by the translators. -/
structure HttpRequest where
  url : String
  method : String
  headers : List (String × String)
  body : String

/-- An HTTP response as seen through fetch: status, headers, the body as raw
text (read on the error path), and the body as parsed JSON of the expected
shape (`none` models a body that fails to parse as JSON). -/
structure HttpResponse (β : Type) where
  status : Nat
  headers : List (String × String)
  bodyText : String
  jsonBody : Option β

/-- Modelled from the spec: the fetch Response.ok flag, true exactly for
2xx statuses. -/
def HttpResponse.ok {β : Type} (r : HttpResponse β) : Bool :=
  decide (200 ≤ r.status) && decide (r.status ≤ 299)

/-- One item of the embedding response: an object with an `embedding` array. -/
structure EmbeddingItem where
  embedding : List Rat

/-- The optional usage fields of the object-shaped embedding response. -/
structure EmbeddingUsageFields where
  total_tokens : Option Rat
  prompt_tokens : Option Rat

/-- The object shape of the embedding response (`EmbeddingApiResponse`
in the source): optional `data` array and optional `usage` object. -/
structure EmbeddingApiResponse where
  data : Option (List EmbeddingItem)
  usage : Option EmbeddingUsageFields

/-- The embedding response body union: either a bare array of items or an
`EmbeddingApiResponse` object. The constructor distinguishes exactly what
the source distinguishes with Array.isArray. -/
inductive EmbedResponseBody where
| arr : List EmbeddingItem → EmbedResponseBody
| obj : EmbeddingApiResponse → EmbedResponseBody

/-- The reported usage of a successful embedding call. -/
structure UsageTokens where
  tokens : Rat

/-- Result of the V2-generation embedding translator: embeddings, optional
usage, and the captured response headers (rawResponse.headers). -/
structure EmbedResultV2 where
  embeddings : List (List Rat)
  usage : Option UsageTokens
  rawResponseHeaders : List (String × String)

/-- Result of the V3-generation embedding translator: additionally an
always-present warnings list and the echoed parsed response body. -/
structure EmbedResultV3 where
  embeddings : List (List Rat)
  usage : Option UsageTokens
  warnings : List String
  responseHeaders : List (String × String)
  responseBody : EmbedResponseBody

/-- Header assembly of the embedding translator (source lines 59 to 70):
start from Content-Type, spread the configuration headers over it, then
assign each defined per-call header, skipping undefined values. -/
def ScxEmbeddingModel.buildHeaders (configHeaders : List (String × String))
    (additionalHeaders : Option (List (String × Option String))) : List (String × String) :=
  let headers := recordSpread [("Content-Type", "application/json")] configHeaders
  match additionalHeaders with
  | none => headers
  | some entries =>
      entries.foldl (fun acc p =>
        match p.2 with
        | none => acc
        | some v => recordSet acc p.1 v) headers

/-- Core of the V2 embedding translator doEmbed, after the configuration
header thunk has been resolved: build the wire body and headers, issue one
POST to baseURL/embeddings, translate non-2xx to an error carrying status
and raw body text, and on success extract embeddings (both shapes) and
usage. Returns the issued requests together with the result. -/
def ScxEmbeddingModel.doEmbedWith (modelId baseURL : String)
    (configHeaders : List (String × String))
    (fetchFn : HttpRequest → HttpResponse EmbedResponseBody)
    (values : List String)
    (additionalHeaders : Option (List (String × Option String))) :
    List HttpRequest × Except String EmbedResultV2 :=
  let requestBody : Json := Json.obj [("model", Json.str modelId),
    ("input", Json.arr (values.map Json.str))]
  let headers := ScxEmbeddingModel.buildHeaders configHeaders additionalHeaders
  let req : HttpRequest := ⟨baseURL ++ "/embeddings", "POST", headers, requestBody.serialize⟩
  let response := fetchFn req
  if !response.ok then
    ([req], .error ("SCX embedding request failed: " ++ toString response.status ++ " "
      ++ response.bodyText))
  else
    match response.jsonBody with
    | none => ([req], .error "SyntaxError: response body is not valid JSON")
    | some responseBody =>
        let responseHeaders := response.headers
        let embeddings := match responseBody with
          | .arr items => items.map (fun d => d.embedding)
          | .obj r => (r.data.map (fun ds => ds.map (fun d => d.embedding))).getD []
        let usage := match responseBody with
          | .arr _ => none
          | .obj r => r.usage.map (fun u =>
              ⟨u.total_tokens.getD (u.prompt_tokens.getD 0)⟩)
        ([req], .ok ⟨embeddings, usage, responseHeaders⟩)

/-- Core of the V3 embedding translator doEmbed (second generation in the
source, lines 161 to 233): identical request and parsing logic, returning
additionally an empty warnings list and the parsed body. -/
def ScxEmbeddingModelV3.doEmbedWith (modelId baseURL : String)
    (configHeaders : List (String × String))
    (fetchFn : HttpRequest → HttpResponse EmbedResponseBody)
    (values : List String)
    (additionalHeaders : Option (List (String × Option String))) :
    List HttpRequest × Except String EmbedResultV3 :=
  let requestBody : Json := Json.obj [("model", Json.str modelId),
    ("input", Json.arr (values.map Json.str))]
  let headers := ScxEmbeddingModel.buildHeaders configHeaders additionalHeaders
  let req : HttpRequest := ⟨baseURL ++ "/embeddings", "POST", headers, requestBody.serialize⟩
  let response := fetchFn req
  if !response.ok then
    ([req], .error ("SCX embedding request failed: " ++ toString response.status ++ " "
      ++ response.bodyText))
  else
    match response.jsonBody with
    | none => ([req], .error "SyntaxError: response body is not valid JSON")
    | some responseBody =>
        let responseHeaders := response.headers
        let embeddings := match responseBody with
          | .arr items => items.map (fun d => d.embedding)
          | .obj r => (r.data.map (fun ds => ds.map (fun d => d.embedding))).getD []
        let usage := match responseBody with
          | .arr _ => none
          | .obj r => r.usage.map (fun u =>
              ⟨u.total_tokens.getD (u.prompt_tokens.getD 0)⟩)
        let warnings : List String := []
        ([req], .ok ⟨embeddings, usage, warnings, responseHeaders, responseBody⟩)

/-- One segment of the transcription response, field names as on the wire. -/
structure TranscriptionSegment where
  text : String
  start : Rat
  «end» : Rat

/-- The parsed transcription response body (`TranscriptionApiResponse` in the
source): all fields optional. -/
structure TranscriptionApiResponse where
  text : Option String
  segments : Option (List TranscriptionSegment)
  language : Option String
  duration : Option Rat

/-- One segment of the translated result, with startSecond/endSecond names. -/
structure MappedSegment where
  text : String
  startSecond : Rat
  endSecond : Rat

/-- Result of the transcription translator doGenerate: translated text and
segments, pass-through language and duration, warnings, the diagnostic
request body string, and the captured response envelope (headers, parsed
body, model id; the wall-clock timestamp of the source is outside the
model). -/
structure TranscriptionResult where
  text : String
  segments : List MappedSegment
  language : Option String
  durationInSeconds : Option Rat
  warnings : List String
  requestBody : String
  responseHeaders : List (String × String)
  responseBody : TranscriptionApiResponse
  responseModelId : String

/-- Audio input of a transcription call: raw bytes (Uint8Array) or an
already-encoded string. -/
inductive AudioInput where
| bytes : List Nat → AudioInput
| str : String → AudioInput

/-- Audio conversion of the transcription translator (source lines 76 to 79):
raw bytes are base64-encoded, strings pass through unchanged. -/
def transcriptionAudioData : AudioInput → Json
| .bytes bs => Json.str (base64Encode bs)
| .str s => Json.str s

/-- Wire body assembly of the transcription translator (source lines 81 to
91): base fields model/audio/media_type, then Object.assign of the
provider-specific scx options bag, overriding on name collision. -/
def transcriptionWireBody (modelId : String) (audio : AudioInput) (mediaType : String)
    (scxOptions : Option (List (String × Json))) : List (String × Json) :=
  let requestBody : List (String × Json) := [("model", Json.str modelId),
    ("audio", transcriptionAudioData audio), ("media_type", Json.str mediaType)]
  match scxOptions with
  | none => requestBody
  | some opts => recordSpread requestBody opts

/-- Header assembly of the transcription translator (source lines 95 to 106),
textually identical to the embedding translator logic. -/
def ScxTranscriptionModel.buildHeaders (configHeaders : List (String × String))
    (additionalHeaders : Option (List (String × Option String))) : List (String × String) :=
  let headers := recordSpread [("Content-Type", "application/json")] configHeaders
  match additionalHeaders with
  | none => headers
  | some entries =>
      entries.foldl (fun acc p =>
        match p.2 with
        | none => acc
        | some v => recordSet acc p.1 v) headers

/-- Core of the transcription translator doGenerate, after the configuration
header thunk has been resolved: encode audio, build and serialize the wire
body once, issue one POST to baseURL/transcriptions, translate non-2xx to
an error carrying status and raw body text, and on success map segments and
default missing fields. Returns the issued requests with the result. -/
def ScxTranscriptionModel.doGenerateWith (modelId baseURL : String)
    (configHeaders : List (String × String))
    (fetchFn : HttpRequest → HttpResponse TranscriptionApiResponse)
    (audio : AudioInput) (mediaType : String)
    (scxOptions : Option (List (String × Json)))
    (additionalHeaders : Option (List (String × Option String))) :
    List HttpRequest × Except String TranscriptionResult :=
  let requestBody := transcriptionWireBody modelId audio mediaType scxOptions
  let bodyString := (Json.obj requestBody).serialize
  let headers := ScxTranscriptionModel.buildHeaders configHeaders additionalHeaders
  let req : HttpRequest := ⟨baseURL ++ "/transcriptions", "POST", headers, bodyString⟩
  let response := fetchFn req
  if !response.ok then
    ([req], .error ("SCX transcription request failed: " ++ toString response.status ++ " "
      ++ response.bodyText))
  else
    match response.jsonBody with
    | none => ([req], .error "SyntaxError: response body is not valid JSON")
    | some responseBody =>
        let responseHeaders := response.headers
        let segments := (responseBody.segments.map (fun segs =>
          segs.map (fun seg => MappedSegment.mk seg.text seg.start seg.«end»))).getD []
        ([req], .ok ⟨responseBody.text.getD "", segments, responseBody.language,
          responseBody.duration, [], bodyString, responseHeaders, responseBody, modelId⟩)

/-- Modelled from the spec: the external loadApiKey collaborator of
provider-utils — yield the configured key, else fall back to the
SCX_API_KEY environment variable (passed here as an explicit snapshot),
failing when neither is present. -/
def loadApiKey (apiKey envSCX : Option String) : Except String String :=
  match apiKey with
  | some k => Except.ok k
  | none =>
      match envSCX with
      | some k => Except.ok k
      | none => Except.error
          "SCX API key is missing. Pass it using the apiKey option or the SCX_API_KEY environment variable."

/-- Modelled from the spec: the external withoutTrailingSlash collaborator —
strip one trailing slash from the optional base URL. -/
def withoutTrailingSlash : Option String → Option String
| none => none
| some s => some (if s.endsWith "/" then s.dropRight 1 else s)

/-- Modelled from the spec: the configuration captured by the external
OpenAI-compatible chat client at construction. The apiKey field is a plain
string: the delegate receives an already-resolved key value. -/
structure OpenAICompatibleConfig where
  name : String
  baseURL : String
  apiKey : String
  headers : List (String × String)

/-- Modelled from the spec: a chat model produced by the external
OpenAI-compatible client, bound to its model id and captured config. -/
structure ChatModel where
  modelId : String
  config : OpenAICompatibleConfig

/-- Settings accepted by createScx. The headers field is given as an entry
list (JavaScript objects have unique keys; nothing below depends on that). -/
structure ScxProviderSettings where
  baseURL : Option String
  apiKey : Option String
  headers : List (String × String)

/-- Shared translator configuration: the headers field is a thunk, modelled
as a function of the SCX_API_KEY environment snapshot at call time, that
either fails (missing key) or yields the assembled header map. -/
structure ScxModelConfig where
  provider : String
  baseURL : String
  headers : Option String → Except String (List (String × String))

/-- An embedding model handle as constructed by the façade. -/
structure ScxEmbeddingModelHandle where
  modelId : String
  provider : String
  config : ScxModelConfig

/-- A transcription model handle as constructed by the façade. -/
structure ScxTranscriptionModelHandle where
  modelId : String
  provider : String
  config : ScxModelConfig

/-- The provider façade object: the callable entry point (with its
new.target flag made explicit as the first argument) plus the named
accessors for each model family. -/
structure ScxProvider where
  callFn : Bool → String → Except String ChatModel
  languageModel : String → ChatModel
  chat : String → ChatModel
  embedding : String → ScxEmbeddingModelHandle
  textEmbeddingModel : String → ScxEmbeddingModelHandle
  transcription : String → ScxTranscriptionModelHandle
  transcriptionModel : String → ScxTranscriptionModelHandle

/-- The provider façade createScx (source lines 112 to 180). The environment
snapshot at construction time is an explicit argument. The getHeaders
closure re-resolves the key from the call-time environment snapshot; the
OpenAI-compatible chat delegate instead receives getApiKey() eagerly at
construction (source line 132), so a missing key fails construction
itself and createScx is fallible. -/
def createScx (options : ScxProviderSettings) (envAtConstruction : Option String) :
    Except String ScxProvider :=
  let baseURL := (withoutTrailingSlash options.baseURL).getD "https://api.scx.ai/v1"
  let getApiKey := fun (env : Option String) => loadApiKey options.apiKey env
  let getHeaders := fun (env : Option String) =>
    (getApiKey env).map (fun key =>
      recordSpread [("Authorization", "Bearer " ++ key)] options.headers)
  match getApiKey envAtConstruction with
  | .error e => .error e
  | .ok key =>
      let compatConfig : OpenAICompatibleConfig := ⟨"scx", baseURL, key, options.headers⟩
      let createChatModel := fun (modelId : String) => ChatModel.mk modelId compatConfig
      let createEmbeddingModel := fun (modelId : String) =>
        ScxEmbeddingModelHandle.mk modelId "scx.embedding"
          ⟨"scx.embedding", baseURL, getHeaders⟩
      let createTranscriptionModel := fun (modelId : String) =>
        ScxTranscriptionModelHandle.mk modelId "scx.transcription"
          ⟨"scx.transcription", baseURL, getHeaders⟩
      Except.ok
        ⟨fun isNewTarget modelId =>
            if isNewTarget then
              Except.error "The SCX model function cannot be called with the new keyword."
            else Except.ok (createChatModel modelId),
          createChatModel, createChatModel,
          createEmbeddingModel, createEmbeddingModel,
          createTranscriptionModel, createTranscriptionModel⟩

/-- doEmbed of an embedding model handle: resolve the configuration header
thunk (which is where a missing API key surfaces, before any request is
issued), then run the translator core. -/
def ScxEmbeddingModelHandle.doEmbed (m : ScxEmbeddingModelHandle) (env : Option String)
    (fetchFn : HttpRequest → HttpResponse EmbedResponseBody)
    (values : List String)
    (additionalHeaders : Option (List (String × Option String))) :
    List HttpRequest × Except String EmbedResultV2 :=
  match m.config.headers env with
  | .error e => ([], .error e)
  | .ok configHeaders =>
      ScxEmbeddingModel.doEmbedWith m.modelId m.config.baseURL configHeaders fetchFn values
        additionalHeaders

/-- doGenerate of a transcription model handle: resolve the configuration
header thunk (a missing API key surfaces here, before any request), then
run the translator core. -/
def ScxTranscriptionModelHandle.doGenerate (m : ScxTranscriptionModelHandle)
    (env : Option String)
    (fetchFn : HttpRequest → HttpResponse TranscriptionApiResponse)
    (audio : AudioInput) (mediaType : String)
    (scxOptions : Option (List (String × Json)))
    (additionalHeaders : Option (List (String × Option String))) :
    List HttpRequest × Except String TranscriptionResult :=
  match m.config.headers env with
  | .error e => ([], .error e)
  | .ok configHeaders =>
      ScxTranscriptionModel.doGenerateWith m.modelId m.config.baseURL configHeaders fetchFn
        audio mediaType scxOptions additionalHeaders

/-- Left-biased choice on options, used to state precedence properties. -/
def optOr {α : Type} : Option α → Option α → Option α
| some x, _ => some x
| none, b => b

/-- The value of the last entry for a key among per-call header entries,
ignoring entries whose value is the undefined marker. -/
def lastDefined : List (String × Option String) → String → Option String
| [], _ => none
| p :: rest, k =>
    match lastDefined rest k with
    | some v => some v
    | none =>
        if p.1 == k then
          match p.2 with
          | some v => some v
          | none => none
        else none

/-- The value of the last entry for a key in an entry list. -/
def lastVal {α : Type} : List (String × α) → String → Option α
| [], _ => none
| p :: rest, k =>
    match lastVal rest k with
    | some v => some v
    | none => if p.1 == k then some p.2 else none

theorem recordGet_recordSet_self {α : Type} (m : List (String × α)) (k : String) (v : α) :
    recordGet (recordSet m k v) k = some v := by
  induction m with
  | nil => simp [recordSet, recordGet]
  | cons p rest ih =>
      by_cases h : p.1 = k
      · simp [recordSet, recordGet, h]
      · simp [recordSet, recordGet, h, ih]

theorem recordGet_recordSet_ne {α : Type} (m : List (String × α)) (k : String) (v : α)
    (k' : String) (h : k' ≠ k) : recordGet (recordSet m k v) k' = recordGet m k' := by
  have h' : k ≠ k' := Ne.symm h
  induction m with
  | nil => simp [recordSet, recordGet, h']
  | cons p rest ih =>
      by_cases hp : p.1 = k
      · have hp' : ¬ p.1 = k' := by rw [hp]; exact h'
        simp [recordSet, recordGet, hp, hp', h']
      · simp [recordSet, recordGet, hp, ih]

theorem recordGet_foldl_condInsert (entries : List (String × Option String)) :
    ∀ (acc : List (String × String)) (k : String),
      recordGet (entries.foldl (fun acc p =>
        match p.2 with
        | none => acc
        | some v => recordSet acc p.1 v) acc) k
        = optOr (lastDefined entries k) (recordGet acc k) := by
  induction entries with
  | nil => intro acc k; simp [lastDefined, optOr]
  | cons p rest ih =>
      intro acc k
      rw [List.foldl_cons, ih]
      cases hld : lastDefined rest k with
      | some v => simp [lastDefined, hld, optOr]
      | none =>
          cases hpv : p.2 with
          | none => simp [lastDefined, hld, hpv, optOr]
          | some v =>
              by_cases hpk : p.1 = k
              · subst hpk
                simp [lastDefined, hld, hpv, optOr, recordGet_recordSet_self]
              · have : k ≠ p.1 := fun hh => hpk hh.symm
                simp [lastDefined, hld, hpv, optOr, hpk,
                  recordGet_recordSet_ne acc p.1 v k this]

theorem recordGet_recordSpread {α : Type} (extra : List (String × α)) :
    ∀ (base : List (String × α)) (k : String),
      recordGet (recordSpread base extra) k = optOr (lastVal extra k) (recordGet base k) := by
  induction extra with
  | nil => intro base k; simp [recordSpread, lastVal, optOr]
  | cons p rest ih =>
      intro base k
      rw [recordSpread, List.foldl_cons]
      have ih' := ih (recordSet base p.1 p.2) k
      rw [recordSpread] at ih'
      rw [ih']
      cases hld : lastVal rest k with
      | some v => simp [lastVal, hld, optOr]
      | none =>
          by_cases hpk : p.1 = k
          · subst hpk
            simp [lastVal, hld, optOr, recordGet_recordSet_self]
          · have : k ≠ p.1 := fun hh => hpk hh.symm
            simp [lastVal, hld, optOr, hpk,
              recordGet_recordSet_ne base p.1 p.2 k this]

theorem recordGet_singleton {α : Type} (k0 k : String) (v : α) :
    recordGet [(k0, v)] k = if k = k0 then some v else none := by
  by_cases h : k = k0
  · subst h; simp [recordGet]
  · simp [recordGet, h, Ne.symm h]

theorem httpOk_of_status {β : Type} (status : Nat) (hs : List (String × String))
    (bt : String) (jb : Option β) (h1 : 200 ≤ status) (h2 : status ≤ 299) :
    (⟨status, hs, bt, jb⟩ : HttpResponse β).ok = true := by
  simp [HttpResponse.ok, h1, h2]

theorem httpOk_false_of_status {β : Type} (status : Nat) (hs : List (String × String))
    (bt : String) (jb : Option β) (h : ¬ (200 ≤ status ∧ status ≤ 299)) :
    (⟨status, hs, bt, jb⟩ : HttpResponse β).ok = false := by
  rw [HttpResponse.ok]
  by_cases h1 : 200 ≤ status
  · by_cases h2 : status ≤ 299
    · exact absurd ⟨h1, h2⟩ h
    · simp [h2]
  · simp [h1]

/-- C5: for every embedding or transcription request, the outbound header map
resolves each key with this precedence, later overriding earlier: the last
defined caller-supplied per-call value (per-call entries carrying the
undefined marker are skipped entirely, so they neither override nor appear),
else the configuration-provided value, else the fixed Content-Type entry. -/
theorem outbound_header_precedence (ch : List (String × String))
    (add : List (String × Option String)) (k : String) :
    recordGet (ScxEmbeddingModel.buildHeaders ch (some add)) k
        = optOr (lastDefined add k) (optOr (lastVal ch k)
            (if k = "Content-Type" then some "application/json" else none))
    ∧ recordGet (ScxTranscriptionModel.buildHeaders ch (some add)) k
        = optOr (lastDefined add k) (optOr (lastVal ch k)
            (if k = "Content-Type" then some "application/json" else none)) := by
  have hb1 : ScxEmbeddingModel.buildHeaders ch (some add)
      = add.foldl (fun acc p =>
          match p.2 with
          | none => acc
          | some v => recordSet acc p.1 v)
        (recordSpread [("Content-Type", "application/json")] ch) := rfl
  have hb2 : ScxTranscriptionModel.buildHeaders ch (some add)
      = add.foldl (fun acc p =>
          match p.2 with
          | none => acc
          | some v => recordSet acc p.1 v)
        (recordSpread [("Content-Type", "application/json")] ch) := rfl
  constructor
  · rw [hb1, recordGet_foldl_condInsert add, recordGet_recordSpread ch,
      recordGet_singleton]
  · rw [hb2, recordGet_foldl_condInsert add, recordGet_recordSpread ch,
      recordGet_singleton]

/-- C2: for every non-empty inputs sequence of at most 2048 strings, a
successful doEmbed call against a conforming response (one embedding item
per input, the item at position i computed from the input at position i,
in either response shape) returns exactly one embedding vector per input,
in input order, the vector at position i being the one for input i. -/
theorem doEmbed_returns_one_embedding_per_input (modelId baseURL : String)
    (configHeaders : List (String × String)) (values : List String)
    (f : String → List Rat) (status : Nat) (respHeaders : List (String × String))
    (bodyText : String) (usage : Option EmbeddingUsageFields) (body : EmbedResponseBody)
    (hne : values ≠ []) (hlen : values.length ≤ 2048)
    (hok : 200 ≤ status ∧ status ≤ 299)
    (hbody : body = .arr (values.map (fun v => ⟨f v⟩))
      ∨ body = .obj ⟨some (values.map (fun v => ⟨f v⟩)), usage⟩) :
    ∃ res, (ScxEmbeddingModel.doEmbedWith modelId baseURL configHeaders
        (fun _ => ⟨status, respHeaders, bodyText, some body⟩) values none).2 = .ok res
      ∧ res.embeddings = values.map f
      ∧ res.embeddings.length = values.length := by
  have hok' := httpOk_of_status status respHeaders bodyText (some body) hok.1 hok.2
  rcases hbody with hb | hb
  · subst hb
    refine ⟨⟨values.map f, none, respHeaders⟩, ?_, rfl, by simp⟩
    simp [ScxEmbeddingModel.doEmbedWith, hok', List.map_map, Function.comp_def]
  · subst hb
    refine ⟨⟨values.map f,
      usage.map (fun u => ⟨u.total_tokens.getD (u.prompt_tokens.getD 0)⟩), respHeaders⟩,
      ?_, rfl, by simp⟩
    simp [ScxEmbeddingModel.doEmbedWith, hok', List.map_map, Function.comp_def]

/-- Witness for the C2 theorem at a concrete input. -/
theorem doEmbed_returns_one_embedding_per_input_witness :
    (["a", "b"] : List String) ≠ [] ∧ (["a", "b"] : List String).length ≤ 2048
    ∧ (200 ≤ 200 ∧ 200 ≤ 299)
    ∧ ∃ res, (ScxEmbeddingModel.doEmbedWith "E5" "https://api.scx.ai/v1" []
        (fun _ => ⟨200, [], "",
          some (.arr ((["a", "b"] : List String).map (fun v =>
            ⟨(fun _ => ([1] : List Rat)) v⟩)))⟩) ["a", "b"] none).2 = .ok res
      ∧ res.embeddings = (["a", "b"] : List String).map (fun _ => ([1] : List Rat))
      ∧ res.embeddings.length = (["a", "b"] : List String).length :=
  ⟨by simp, by simp, by simp,
    doEmbed_returns_one_embedding_per_input "E5" "https://api.scx.ai/v1" [] ["a", "b"]
      (fun _ => [1]) 200 [] "" none _ (by simp) (by simp) (by simp) (Or.inl rfl)⟩

/-- C3: on every successful embedding response body the translator keys off
the top-level shape: a bare array of items yields exactly those embedding
arrays in order; an object yields the embedding arrays of its data field in
order, defaulting to the empty sequence when data is absent; the call
succeeds in every case (a missing data field never fails). -/
theorem doEmbed_shape_detection (modelId baseURL : String)
    (configHeaders : List (String × String)) (values : List String)
    (addH : Option (List (String × Option String)))
    (status : Nat) (respHeaders : List (String × String)) (bodyText : String)
    (body : EmbedResponseBody) (hok : 200 ≤ status ∧ status ≤ 299) :
    ∃ res, (ScxEmbeddingModel.doEmbedWith modelId baseURL configHeaders
        (fun _ => ⟨status, respHeaders, bodyText, some body⟩) values addH).2 = .ok res
      ∧ (∀ items, body = .arr items → res.embeddings = items.map (fun d => d.embedding))
      ∧ (∀ r ds, body = .obj r → r.data = some ds →
          res.embeddings = ds.map (fun d => d.embedding))
      ∧ (∀ r, body = .obj r → r.data = none → res.embeddings = []) := by
  have hok' := httpOk_of_status status respHeaders bodyText (some body) hok.1 hok.2
  cases body with
  | arr items =>
      refine ⟨⟨items.map (fun d => d.embedding), none, respHeaders⟩, ?_, ?_, ?_, ?_⟩
      · simp [ScxEmbeddingModel.doEmbedWith, hok']
      · intro items' h
        cases h
        rfl
      · intro r ds h
        cases h
      · intro r h
        cases h
  | obj r =>
      refine ⟨⟨(r.data.map (fun ds => ds.map (fun d => d.embedding))).getD [],
        r.usage.map (fun u => ⟨u.total_tokens.getD (u.prompt_tokens.getD 0)⟩),
        respHeaders⟩, ?_, ?_, ?_, ?_⟩
      · simp [ScxEmbeddingModel.doEmbedWith, hok']
      · intro items h
        cases h
      · intro r' ds h hdata
        cases h
        simp [hdata]
      · intro r' h hdata
        cases h
        simp [hdata]

/-- Witness for the C3 theorem at a concrete input: the success body
[ left-brace embedding: [1, 2] right-brace ] as a bare array. -/
theorem doEmbed_shape_detection_witness :
    (200 ≤ 200 ∧ 200 ≤ 299)
    ∧ ∃ res, (ScxEmbeddingModel.doEmbedWith "E5" "https://api.scx.ai/v1" []
        (fun _ => ⟨200, [], "", some (.arr [⟨[1, 2]⟩])⟩) ["x"] none).2 = .ok res
      ∧ (∀ items, EmbedResponseBody.arr [⟨[1, 2]⟩] = .arr items →
          res.embeddings = items.map (fun d => d.embedding))
      ∧ (∀ r ds, EmbedResponseBody.arr [⟨[1, 2]⟩] = .obj r → r.data = some ds →
          res.embeddings = ds.map (fun d => d.embedding))
      ∧ (∀ r, EmbedResponseBody.arr [⟨[1, 2]⟩] = .obj r → r.data = none →
          res.embeddings = []) :=
  ⟨by simp, doEmbed_shape_detection "E5" "https://api.scx.ai/v1" [] ["x"] none 200 [] ""
    (.arr [⟨[1, 2]⟩]) (by simp)⟩

/-- C4: on every successful embedding response the reported usage is: the
total_tokens value when the object shape carries one, else the
prompt_tokens value when present, else zero; and usage is entirely absent
whenever the body is the bare-array shape or the object has no usage
field. -/
theorem doEmbed_usage_mapping (modelId baseURL : String)
    (configHeaders : List (String × String)) (values : List String)
    (addH : Option (List (String × Option String)))
    (status : Nat) (respHeaders : List (String × String)) (bodyText : String)
    (body : EmbedResponseBody) (hok : 200 ≤ status ∧ status ≤ 299) :
    ∃ res, (ScxEmbeddingModel.doEmbedWith modelId baseURL configHeaders
        (fun _ => ⟨status, respHeaders, bodyText, some body⟩) values addH).2 = .ok res
      ∧ (∀ items, body = .arr items → res.usage = none)
      ∧ (∀ r, body = .obj r → r.usage = none → res.usage = none)
      ∧ (∀ r u t, body = .obj r → r.usage = some u → u.total_tokens = some t →
          res.usage = some ⟨t⟩)
      ∧ (∀ r u pt, body = .obj r → r.usage = some u → u.total_tokens = none →
          u.prompt_tokens = some pt → res.usage = some ⟨pt⟩)
      ∧ (∀ r u, body = .obj r → r.usage = some u → u.total_tokens = none →
          u.prompt_tokens = none → res.usage = some ⟨0⟩) := by
  have hok' := httpOk_of_status status respHeaders bodyText (some body) hok.1 hok.2
  cases body with
  | arr items =>
      refine ⟨⟨items.map (fun d => d.embedding), none, respHeaders⟩, ?_, ?_, ?_, ?_, ?_, ?_⟩
      · simp [ScxEmbeddingModel.doEmbedWith, hok']
      · intro items' h; rfl
      · intro r h; cases h
      · intro r u t h; cases h
      · intro r u pt h; cases h
      · intro r u h; cases h
  | obj r =>
      refine ⟨⟨(r.data.map (fun ds => ds.map (fun d => d.embedding))).getD [],
        r.usage.map (fun u => ⟨u.total_tokens.getD (u.prompt_tokens.getD 0)⟩),
        respHeaders⟩, ?_, ?_, ?_, ?_, ?_, ?_⟩
      · simp [ScxEmbeddingModel.doEmbedWith, hok']
      · intro items h; cases h
      · intro r' h husage
        cases h
        simp [husage]
      · intro r' u t h husage htot
        cases h
        simp [husage, htot]
      · intro r' u pt h husage htot hpt
        cases h
        simp [husage, htot, hpt]
      · intro r' u h husage htot hpt
        cases h
        simp [husage, htot, hpt]

/-- Witness for the C4 theorem at a concrete input: an object body whose
usage has prompt_tokens 7 and no total_tokens. -/
theorem doEmbed_usage_mapping_witness :
    (200 ≤ 200 ∧ 200 ≤ 299)
    ∧ ∃ res, (ScxEmbeddingModel.doEmbedWith "E5" "https://api.scx.ai/v1" []
        (fun _ => ⟨200, [], "",
          some (.obj ⟨none, some ⟨none, some 7⟩⟩)⟩) ["x"] none).2 = .ok res
      ∧ (∀ items, EmbedResponseBody.obj ⟨none, some ⟨none, some 7⟩⟩ = .arr items →
          res.usage = none)
      ∧ (∀ r, EmbedResponseBody.obj ⟨none, some ⟨none, some 7⟩⟩ = .obj r →
          r.usage = none → res.usage = none)
      ∧ (∀ r u t, EmbedResponseBody.obj ⟨none, some ⟨none, some 7⟩⟩ = .obj r →
          r.usage = some u → u.total_tokens = some t → res.usage = some ⟨t⟩)
      ∧ (∀ r u pt, EmbedResponseBody.obj ⟨none, some ⟨none, some 7⟩⟩ = .obj r →
          r.usage = some u → u.total_tokens = none → u.prompt_tokens = some pt →
          res.usage = some ⟨pt⟩)
      ∧ (∀ r u, EmbedResponseBody.obj ⟨none, some ⟨none, some 7⟩⟩ = .obj r →
          r.usage = some u → u.total_tokens = none → u.prompt_tokens = none →
          res.usage = some ⟨0⟩) :=
  ⟨by simp, doEmbed_usage_mapping "E5" "https://api.scx.ai/v1" [] ["x"] none 200 [] ""
    (.obj ⟨none, some ⟨none, some 7⟩⟩) (by simp)⟩

/-- C6: every non-2xx response makes both translators fail with a single
error whose message contains the numeric status code and the raw response
body text verbatim, and exactly one HTTP request is issued (no retry). -/
theorem non2xx_single_error_single_call (modelId baseURL : String)
    (configHeaders : List (String × String)) (values : List String)
    (audio : AudioInput) (mediaType : String) (scxOptions : Option (List (String × Json)))
    (addH : Option (List (String × Option String)))
    (status : Nat) (respHeaders : List (String × String)) (bodyText : String)
    (ebody : Option EmbedResponseBody) (tbody : Option TranscriptionApiResponse)
    (hok : ¬ (200 ≤ status ∧ status ≤ 299)) :
    ((ScxEmbeddingModel.doEmbedWith modelId baseURL configHeaders
        (fun _ => ⟨status, respHeaders, bodyText, ebody⟩) values addH).1.length = 1
      ∧ ∃ msg, (ScxEmbeddingModel.doEmbedWith modelId baseURL configHeaders
          (fun _ => ⟨status, respHeaders, bodyText, ebody⟩) values addH).2 = .error msg
        ∧ (∃ a b, msg = a ++ toString status ++ b)
        ∧ (∃ a b, msg = a ++ bodyText ++ b))
    ∧ ((ScxTranscriptionModel.doGenerateWith modelId baseURL configHeaders
        (fun _ => ⟨status, respHeaders, bodyText, tbody⟩) audio mediaType scxOptions
          addH).1.length = 1
      ∧ ∃ msg, (ScxTranscriptionModel.doGenerateWith modelId baseURL configHeaders
          (fun _ => ⟨status, respHeaders, bodyText, tbody⟩) audio mediaType scxOptions
            addH).2 = .error msg
        ∧ (∃ a b, msg = a ++ toString status ++ b)
        ∧ (∃ a b, msg = a ++ bodyText ++ b)) := by
  have hokE := httpOk_false_of_status status respHeaders bodyText ebody hok
  have hokT := httpOk_false_of_status status respHeaders bodyText tbody hok
  constructor
  · constructor
    · simp [ScxEmbeddingModel.doEmbedWith, hokE]
    · refine ⟨"SCX embedding request failed: " ++ toString status ++ " " ++ bodyText, ?_,
        ⟨"SCX embedding request failed: ", " " ++ bodyText,
          String.append_assoc _ " " bodyText⟩,
        ⟨"SCX embedding request failed: " ++ toString status ++ " ", "", ?_⟩⟩
      · simp [ScxEmbeddingModel.doEmbedWith, hokE]
      · rw [String.append_empty]
  · constructor
    · simp [ScxTranscriptionModel.doGenerateWith, hokT]
    · refine ⟨"SCX transcription request failed: " ++ toString status ++ " " ++ bodyText, ?_,
        ⟨"SCX transcription request failed: ", " " ++ bodyText,
          String.append_assoc _ " " bodyText⟩,
        ⟨"SCX transcription request failed: " ++ toString status ++ " ", "", ?_⟩⟩
      · simp [ScxTranscriptionModel.doGenerateWith, hokT]
      · rw [String.append_empty]

/-- Witness for the C6 theorem at the concrete input of the spec: a 429
response with body rate limited. -/
theorem non2xx_single_error_single_call_witness :
    ¬ (200 ≤ 429 ∧ 429 ≤ 299)
    ∧ (((ScxEmbeddingModel.doEmbedWith "E5" "https://api.scx.ai/v1" []
        (fun _ => ⟨429, [], "rate limited", none⟩) ["x"] none).1.length = 1
      ∧ ∃ msg, (ScxEmbeddingModel.doEmbedWith "E5" "https://api.scx.ai/v1" []
          (fun _ => ⟨429, [], "rate limited", none⟩) ["x"] none).2 = .error msg
        ∧ (∃ a b, msg = a ++ toString 429 ++ b)
        ∧ (∃ a b, msg = a ++ "rate limited" ++ b))
    ∧ ((ScxTranscriptionModel.doGenerateWith "whisper" "https://api.scx.ai/v1" []
        (fun _ => ⟨429, [], "rate limited", none⟩) (AudioInput.str "A") "audio/wav" none
          none).1.length = 1
      ∧ ∃ msg, (ScxTranscriptionModel.doGenerateWith "whisper" "https://api.scx.ai/v1" []
          (fun _ => ⟨429, [], "rate limited", none⟩) (AudioInput.str "A") "audio/wav" none
            none).2 = .error msg
        ∧ (∃ a b, msg = a ++ toString 429 ++ b)
        ∧ (∃ a b, msg = a ++ "rate limited" ++ b))) :=
  ⟨by simp,
    non2xx_single_error_single_call "E5" "https://api.scx.ai/v1" [] ["x"]
      (AudioInput.str "A") "audio/wav" none none 429 [] "rate limited" none none
      (by simp)⟩

/-- C7: every successful transcription response body maps each segment to
startSecond/endSecond preserving order and segment text, defaults text to
the empty string and segments to the empty sequence when absent (the call
still succeeds), and passes language and duration through unchanged as
optional fields. -/
theorem transcription_success_mapping (modelId baseURL : String)
    (configHeaders : List (String × String)) (audio : AudioInput) (mediaType : String)
    (scxOptions : Option (List (String × Json)))
    (addH : Option (List (String × Option String)))
    (status : Nat) (respHeaders : List (String × String)) (bodyText : String)
    (rb : TranscriptionApiResponse) (hok : 200 ≤ status ∧ status ≤ 299) :
    ∃ res, (ScxTranscriptionModel.doGenerateWith modelId baseURL configHeaders
        (fun _ => ⟨status, respHeaders, bodyText, some rb⟩) audio mediaType scxOptions
          addH).2 = .ok res
      ∧ (∀ segs, rb.segments = some segs →
          res.segments = segs.map (fun seg => MappedSegment.mk seg.text seg.start seg.«end»))
      ∧ (rb.segments = none → res.segments = [])
      ∧ (∀ t, rb.text = some t → res.text = t)
      ∧ (rb.text = none → res.text = "")
      ∧ res.language = rb.language
      ∧ res.durationInSeconds = rb.duration := by
  have hok' := httpOk_of_status status respHeaders bodyText (some rb) hok.1 hok.2
  refine ⟨⟨rb.text.getD "",
    (rb.segments.map (fun segs =>
      segs.map (fun seg => MappedSegment.mk seg.text seg.start seg.«end»))).getD [],
    rb.language, rb.duration, [],
    (Json.obj (transcriptionWireBody modelId audio mediaType scxOptions)).serialize,
    respHeaders, rb, modelId⟩, ?_, ?_, ?_, ?_, ?_, rfl, rfl⟩
  · simp [ScxTranscriptionModel.doGenerateWith, hok']
  · intro segs h
    simp [h]
  · intro h
    simp [h]
  · intro t h
    simp [h]
  · intro h
    simp [h]

/-- Witness for the C7 theorem at a concrete input: a body with one segment
and no text field. -/
theorem transcription_success_mapping_witness :
    (200 ≤ 200 ∧ 200 ≤ 299)
    ∧ ∃ res, (ScxTranscriptionModel.doGenerateWith "whisper" "https://api.scx.ai/v1" []
        (fun _ => ⟨200, [], "",
          some ⟨none, some [⟨"hi", 0, 12/10⟩], some "en", some 2⟩⟩)
        (AudioInput.str "A") "audio/wav" none none).2 = .ok res
      ∧ (∀ segs, (⟨none, some [⟨"hi", 0, 12/10⟩], some "en", some 2⟩ :
            TranscriptionApiResponse).segments = some segs →
          res.segments = segs.map (fun seg => MappedSegment.mk seg.text seg.start seg.«end»))
      ∧ ((⟨none, some [⟨"hi", 0, 12/10⟩], some "en", some 2⟩ :
            TranscriptionApiResponse).segments = none → res.segments = [])
      ∧ (∀ t, (⟨none, some [⟨"hi", 0, 12/10⟩], some "en", some 2⟩ :
            TranscriptionApiResponse).text = some t → res.text = t)
      ∧ ((⟨none, some [⟨"hi", 0, 12/10⟩], some "en", some 2⟩ :
            TranscriptionApiResponse).text = none → res.text = "")
      ∧ res.language = (⟨none, some [⟨"hi", 0, 12/10⟩], some "en", some 2⟩ :
            TranscriptionApiResponse).language
      ∧ res.durationInSeconds = (⟨none, some [⟨"hi", 0, 12/10⟩], some "en", some 2⟩ :
            TranscriptionApiResponse).duration :=
  ⟨by simp,
    transcription_success_mapping "whisper" "https://api.scx.ai/v1" [] (AudioInput.str "A")
      "audio/wav" none none 200 [] ""
      ⟨none, some [⟨"hi", 0, 12/10⟩], some "en", some 2⟩ (by simp)⟩

/-- C8 counterexample: a provider-specific options bag carrying an audio key
overrides the base audio field, so the merged wire body's audio field is a
number, not a string, refuting the claim that the wire body audio field is
always a string. -/
theorem wireBody_audio_overridden_counterexample :
    recordGet (transcriptionWireBody "whisper" (AudioInput.str "A") "audio/wav"
      (some [("audio", Json.num 7)])) "audio" = some (Json.num 7)
    ∧ Json.isStr (Json.num 7) = false :=
  ⟨rfl, rfl⟩

/-- C8 amended: the audio datum placed in the base wire body is always a
string (base64 text when the input is raw binary, the unchanged text
otherwise); every key of the provider options bag is shallow-merged into
the wire body, the last bag entry for a key overriding the base
model/audio/media_type fields on collision (so the bag may replace the
audio field); and the returned diagnostic request.body is the exact
serialized string sent over HTTP, not a re-serialization. -/
theorem transcription_audio_encoding_merge_exact_body (modelId : String)
    (bs : List Nat) (s : String) (mediaType : String) (audio : AudioInput)
    (opts : List (String × Json)) (k : String)
    (baseURL : String) (configHeaders : List (String × String))
    (scxOptions : Option (List (String × Json)))
    (addH : Option (List (String × Option String)))
    (status : Nat) (respHeaders : List (String × String)) (bodyText : String)
    (rb : TranscriptionApiResponse) (hok : 200 ≤ status ∧ status ≤ 299) :
    transcriptionAudioData (AudioInput.bytes bs) = Json.str (base64Encode bs)
    ∧ transcriptionAudioData (AudioInput.str s) = Json.str s
    ∧ (transcriptionAudioData audio).isStr = true
    ∧ recordGet (transcriptionWireBody modelId audio mediaType (some opts)) k
        = optOr (lastVal opts k)
            (recordGet [("model", Json.str modelId),
              ("audio", transcriptionAudioData audio),
              ("media_type", Json.str mediaType)] k)
    ∧ (ScxTranscriptionModel.doGenerateWith modelId baseURL configHeaders
        (fun _ => ⟨status, respHeaders, bodyText, some rb⟩) audio mediaType scxOptions
          addH).1
        = [⟨baseURL ++ "/transcriptions", "POST",
            ScxTranscriptionModel.buildHeaders configHeaders addH,
            (Json.obj (transcriptionWireBody modelId audio mediaType scxOptions)).serialize⟩]
    ∧ ∀ res, (ScxTranscriptionModel.doGenerateWith modelId baseURL configHeaders
        (fun _ => ⟨status, respHeaders, bodyText, some rb⟩) audio mediaType scxOptions
          addH).2 = .ok res →
        res.requestBody
          = (Json.obj (transcriptionWireBody modelId audio mediaType scxOptions)).serialize := by
  have hok' := httpOk_of_status status respHeaders bodyText (some rb) hok.1 hok.2
  have hres : (ScxTranscriptionModel.doGenerateWith modelId baseURL configHeaders
      (fun _ => ⟨status, respHeaders, bodyText, some rb⟩) audio mediaType scxOptions
        addH).2 = .ok ⟨rb.text.getD "",
      (rb.segments.map (fun segs =>
        segs.map (fun seg => MappedSegment.mk seg.text seg.start seg.«end»))).getD [],
      rb.language, rb.duration, [],
      (Json.obj (transcriptionWireBody modelId audio mediaType scxOptions)).serialize,
      respHeaders, rb, modelId⟩ := by
    simp [ScxTranscriptionModel.doGenerateWith, hok']
  refine ⟨rfl, rfl, ?_, ?_, ?_, ?_⟩
  · cases audio <;> rfl
  · have hw : transcriptionWireBody modelId audio mediaType (some opts)
        = recordSpread [("model", Json.str modelId),
            ("audio", transcriptionAudioData audio),
            ("media_type", Json.str mediaType)] opts := rfl
    rw [hw, recordGet_recordSpread opts]
  · simp [ScxTranscriptionModel.doGenerateWith, hok']
  · intro res h
    rw [hres] at h
    cases h
    rfl

/-- Witness for the C8 amended theorem at a concrete input. -/
theorem transcription_audio_encoding_merge_exact_body_witness :
    (200 ≤ 200 ∧ 200 ≤ 299)
    ∧ (transcriptionAudioData (AudioInput.bytes [77]) = Json.str (base64Encode [77])
    ∧ transcriptionAudioData (AudioInput.str "A") = Json.str "A"
    ∧ (transcriptionAudioData (AudioInput.str "A")).isStr = true
    ∧ recordGet (transcriptionWireBody "whisper" (AudioInput.str "A") "audio/wav"
        (some [("language", Json.str "en")])) "language"
        = optOr (lastVal [("language", Json.str "en")] "language")
            (recordGet [("model", Json.str "whisper"),
              ("audio", transcriptionAudioData (AudioInput.str "A")),
              ("media_type", Json.str "audio/wav")] "language")
    ∧ (ScxTranscriptionModel.doGenerateWith "whisper" "https://api.scx.ai/v1" []
        (fun _ => ⟨200, [], "", some ⟨none, none, none, none⟩⟩) (AudioInput.str "A")
          "audio/wav" none none).1
        = [⟨"https://api.scx.ai/v1" ++ "/transcriptions", "POST",
            ScxTranscriptionModel.buildHeaders [] none,
            (Json.obj (transcriptionWireBody "whisper" (AudioInput.str "A") "audio/wav"
              none)).serialize⟩]
    ∧ ∀ res, (ScxTranscriptionModel.doGenerateWith "whisper" "https://api.scx.ai/v1" []
        (fun _ => ⟨200, [], "", some ⟨none, none, none, none⟩⟩) (AudioInput.str "A")
          "audio/wav" none none).2 = .ok res →
        res.requestBody
          = (Json.obj (transcriptionWireBody "whisper" (AudioInput.str "A") "audio/wav"
              none)).serialize) :=
  ⟨by simp,
    transcription_audio_encoding_merge_exact_body "whisper" [77] "A" "audio/wav"
      (AudioInput.str "A") [("language", Json.str "en")] "language"
      "https://api.scx.ai/v1" [] none none 200 [] "" ⟨none, none, none, none⟩ (by simp)⟩

/-- C9: calling the chat entry point with new.target set fails immediately
with an explicit error (no chat model in the result), while a plain call
returns the chat model of the chat accessor. -/
theorem chat_entry_new_target_rejected (options : ScxProviderSettings)
    (env : Option String) (key m : String)
    (h : loadApiKey options.apiKey env = Except.ok key) :
    ∃ p, createScx options env = Except.ok p
      ∧ p.callFn true m
          = Except.error "The SCX model function cannot be called with the new keyword."
      ∧ p.callFn false m = Except.ok (p.chat m) := by
  cases hcc : createScx options env with
  | error e =>
      exfalso
      simp only [createScx] at hcc
      rw [h] at hcc
      cases hcc
  | ok p =>
      refine ⟨p, rfl, ?_, ?_⟩ <;>
      · simp only [createScx] at hcc
        rw [h] at hcc
        cases hcc
        rfl

/-- Witness for the C9 theorem at a concrete input. -/
theorem chat_entry_new_target_rejected_witness :
    loadApiKey (some "k") none = Except.ok "k"
    ∧ ∃ p, createScx ⟨none, some "k", []⟩ none = Except.ok p
      ∧ p.callFn true "DeepSeek-V3.1"
          = Except.error "The SCX model function cannot be called with the new keyword."
      ∧ p.callFn false "DeepSeek-V3.1" = Except.ok (p.chat "DeepSeek-V3.1") :=
  ⟨rfl, chat_entry_new_target_rejected ⟨none, some "k", []⟩ none "k" "DeepSeek-V3.1" rfl⟩

/-- C10: on every successful response body and header set the V2-generation
and V3-generation embedding translators compute identical embeddings,
identical usage and identical captured response headers; the V3 generation
differs only by returning an always-empty warnings list and echoing the
parsed response body. -/
theorem doEmbed_v2_v3_equivalence (modelId baseURL : String)
    (configHeaders : List (String × String)) (values : List String)
    (addH : Option (List (String × Option String)))
    (status : Nat) (respHeaders : List (String × String)) (bodyText : String)
    (body : EmbedResponseBody) (hok : 200 ≤ status ∧ status ≤ 299) :
    ∃ r2 r3,
      (ScxEmbeddingModel.doEmbedWith modelId baseURL configHeaders
        (fun _ => ⟨status, respHeaders, bodyText, some body⟩) values addH).2 = .ok r2
      ∧ (ScxEmbeddingModelV3.doEmbedWith modelId baseURL configHeaders
        (fun _ => ⟨status, respHeaders, bodyText, some body⟩) values addH).2 = .ok r3
      ∧ r3.embeddings = r2.embeddings
      ∧ r3.usage = r2.usage
      ∧ r3.responseHeaders = r2.rawResponseHeaders
      ∧ r3.warnings = []
      ∧ r3.responseBody = body := by
  have hok' := httpOk_of_status status respHeaders bodyText (some body) hok.1 hok.2
  cases body with
  | arr items =>
      refine ⟨⟨items.map (fun d => d.embedding), none, respHeaders⟩,
        ⟨items.map (fun d => d.embedding), none, [], respHeaders, .arr items⟩,
        ?_, ?_, rfl, rfl, rfl, rfl, rfl⟩
      · simp [ScxEmbeddingModel.doEmbedWith, hok']
      · simp [ScxEmbeddingModelV3.doEmbedWith, hok']
  | obj r =>
      refine ⟨⟨(r.data.map (fun ds => ds.map (fun d => d.embedding))).getD [],
        r.usage.map (fun u => ⟨u.total_tokens.getD (u.prompt_tokens.getD 0)⟩), respHeaders⟩,
        ⟨(r.data.map (fun ds => ds.map (fun d => d.embedding))).getD [],
        r.usage.map (fun u => ⟨u.total_tokens.getD (u.prompt_tokens.getD 0)⟩), [],
        respHeaders, .obj r⟩,
        ?_, ?_, rfl, rfl, rfl, rfl, rfl⟩
      · simp [ScxEmbeddingModel.doEmbedWith, hok']
      · simp [ScxEmbeddingModelV3.doEmbedWith, hok']

/-- Witness for the C10 theorem at a concrete input. -/
theorem doEmbed_v2_v3_equivalence_witness :
    (200 ≤ 200 ∧ 200 ≤ 299)
    ∧ ∃ r2 r3,
      (ScxEmbeddingModel.doEmbedWith "E5" "https://api.scx.ai/v1" []
        (fun _ => ⟨200, [("x-id", "1")], "",
          some (.obj ⟨some [⟨[1, 2]⟩], some ⟨some 5, none⟩⟩)⟩) ["x"] none).2 = .ok r2
      ∧ (ScxEmbeddingModelV3.doEmbedWith "E5" "https://api.scx.ai/v1" []
        (fun _ => ⟨200, [("x-id", "1")], "",
          some (.obj ⟨some [⟨[1, 2]⟩], some ⟨some 5, none⟩⟩)⟩) ["x"] none).2 = .ok r3
      ∧ r3.embeddings = r2.embeddings
      ∧ r3.usage = r2.usage
      ∧ r3.responseHeaders = r2.rawResponseHeaders
      ∧ r3.warnings = []
      ∧ r3.responseBody = .obj ⟨some [⟨[1, 2]⟩], some ⟨some 5, none⟩⟩ :=
  ⟨by simp,
    doEmbed_v2_v3_equivalence "E5" "https://api.scx.ai/v1" [] ["x"] none 200
      [("x-id", "1")] "" (.obj ⟨some [⟨[1, 2]⟩], some ⟨some 5, none⟩⟩) (by simp)⟩

/-- C1 counterexample: with no configured key and no environment key,
createScx itself fails (the OpenAI-compatible chat delegate resolves the
key eagerly at construction, source line 132), refuting the claim that
provider construction succeeds for every model family with the failure
deferred to request time. -/
theorem createScx_missing_key_fails_at_construction :
    createScx ⟨none, none, []⟩ none = Except.error
      "SCX API key is missing. Pass it using the apiKey option or the SCX_API_KEY environment variable." :=
  rfl

/-- C1 amended: API-key resolution is lazy for the embedding and
transcription families only. Their configuration header thunk re-resolves
the key from the environment at each call, so a rotated key is embedded in
the bearer header on the next call without re-constructing the provider,
and an unresolvable key fails at the moment a request builds its headers,
with no HTTP request issued. For the chat family the key is instead
resolved eagerly at provider construction: createScx fails when the key is
unresolvable, and the chat delegate captures the construction-time key. -/
theorem apiKey_lazy_for_embedding_transcription_eager_for_chat
    (options : ScxProviderSettings) (k1 k2 m : String)
    (fetchE : HttpRequest → HttpResponse EmbedResponseBody)
    (fetchT : HttpRequest → HttpResponse TranscriptionApiResponse)
    (values : List String) (audio : AudioInput) (mediaType : String)
    (scxOptions : Option (List (String × Json)))
    (addH : Option (List (String × Option String)))
    (hopt : options.apiKey = none) :
    (∃ e, createScx options none = Except.error e)
    ∧ ∃ p, createScx options (some k1) = Except.ok p
      ∧ (p.chat m).config.apiKey = k1
      ∧ (p.embedding m).config.headers (some k2)
          = Except.ok (recordSpread [("Authorization", "Bearer " ++ k2)] options.headers)
      ∧ (p.transcription m).config.headers (some k2)
          = Except.ok (recordSpread [("Authorization", "Bearer " ++ k2)] options.headers)
      ∧ ((p.embedding m).doEmbed none fetchE values addH).1 = []
      ∧ (∃ e, ((p.embedding m).doEmbed none fetchE values addH).2 = Except.error e)
      ∧ ((p.transcription m).doGenerate none fetchT audio mediaType scxOptions addH).1 = []
      ∧ (∃ e, ((p.transcription m).doGenerate none fetchT audio mediaType scxOptions
          addH).2 = Except.error e) := by
  have h0 : loadApiKey options.apiKey none = Except.error
      "SCX API key is missing. Pass it using the apiKey option or the SCX_API_KEY environment variable." := by
    rw [hopt]; rfl
  have h1 : loadApiKey options.apiKey (some k1) = Except.ok k1 := by
    rw [hopt]; rfl
  have h2 : loadApiKey options.apiKey (some k2) = Except.ok k2 := by
    rw [hopt]; rfl
  constructor
  · refine ⟨"SCX API key is missing. Pass it using the apiKey option or the SCX_API_KEY environment variable.", ?_⟩
    simp only [createScx]
    rw [h0]
  · cases hcc : createScx options (some k1) with
    | error e =>
        exfalso
        simp only [createScx] at hcc
        rw [h1] at hcc
        cases hcc
    | ok p =>
        simp only [createScx] at hcc
        rw [h1] at hcc
        cases hcc
        refine ⟨_, rfl, rfl, ?_, ?_, ?_, ?_, ?_, ?_⟩
        · simp [h2, Except.map]
        · simp [h2, Except.map]
        · simp [ScxEmbeddingModelHandle.doEmbed, h0, Except.map]
        · refine ⟨"SCX API key is missing. Pass it using the apiKey option or the SCX_API_KEY environment variable.", ?_⟩
          simp [ScxEmbeddingModelHandle.doEmbed, h0, Except.map]
        · simp [ScxTranscriptionModelHandle.doGenerate, h0, Except.map]
        · refine ⟨"SCX API key is missing. Pass it using the apiKey option or the SCX_API_KEY environment variable.", ?_⟩
          simp [ScxTranscriptionModelHandle.doGenerate, h0, Except.map]

/-- Witness for the C1 amended theorem at a concrete input. -/
theorem apiKey_lazy_eager_witness :
    (⟨none, none, []⟩ : ScxProviderSettings).apiKey = none
    ∧ ((∃ e, createScx ⟨none, none, []⟩ none = Except.error e)
    ∧ ∃ p, createScx ⟨none, none, []⟩ (some "k1") = Except.ok p
      ∧ (p.chat "m").config.apiKey = "k1"
      ∧ (p.embedding "m").config.headers (some "k2")
          = Except.ok (recordSpread [("Authorization", "Bearer " ++ "k2")]
              (⟨none, none, []⟩ : ScxProviderSettings).headers)
      ∧ (p.transcription "m").config.headers (some "k2")
          = Except.ok (recordSpread [("Authorization", "Bearer " ++ "k2")]
              (⟨none, none, []⟩ : ScxProviderSettings).headers)
      ∧ ((p.embedding "m").doEmbed none (fun _ => ⟨200, [], "", none⟩) ["x"] none).1 = []
      ∧ (∃ e, ((p.embedding "m").doEmbed none (fun _ => ⟨200, [], "", none⟩) ["x"]
          none).2 = Except.error e)
      ∧ ((p.transcription "m").doGenerate none (fun _ => ⟨200, [], "", none⟩)
          (AudioInput.str "A") "audio/wav" none none).1 = []
      ∧ (∃ e, ((p.transcription "m").doGenerate none (fun _ => ⟨200, [], "", none⟩)
          (AudioInput.str "A") "audio/wav" none none).2 = Except.error e)) :=
  ⟨rfl,
    apiKey_lazy_for_embedding_transcription_eager_for_chat ⟨none, none, []⟩ "k1" "k2" "m"
      (fun _ => ⟨200, [], "", none⟩) (fun _ => ⟨200, [], "", none⟩) ["x"]
      (AudioInput.str "A") "audio/wav" none none rfl⟩
